import Mathlib

/-!
Shallow embedding of the docker-core-monitor frontend state logic.

JavaScript objects keyed by strings are modelled as association lists that
keep JS property order: an existing key keeps its position on re-assignment,
a new key is appended.  JS truthiness of string-valued lookups (`if (obj[k])`)
is `recGetTruthy`: present and non-empty.  Numbers are modelled as `Int`;
the JS idiom `v || 0` is `jsOrZero`.
-/

namespace DockerCore

/-- A JS object with string keys, in property order. -/
abbrev Rec (α : Type) := List (String × α)

/-- `obj[k]` as an optional value. -/
def recGet {α : Type} (r : Rec α) (k : String) : Option α :=
  (r.find? (fun p => p.1 == k)).map (·.2)

/-- `k in obj`. -/
def recHas {α : Type} (r : Rec α) (k : String) : Bool :=
  (r.find? (fun p => p.1 == k)).isSome

/-- `obj[k]` under JS truthiness for strings: `some v` only when present and non-empty. -/
def recGetTruthy (r : Rec String) (k : String) : Option String :=
  match recGet r k with
  | some v => if v = "" then none else some v
  | none => none

/-- `{...obj, [k]: v}` / `obj[k] = v`: replace in place when present, else append. -/
def recInsert {α : Type} (r : Rec α) (k : String) (v : α) : Rec α :=
  if recHas r k then r.map (fun p => if p.1 == k then (k, v) else p)
  else r ++ [(k, v)]

/-- `delete obj[k]`. -/
def recErase {α : Type} (r : Rec α) (k : String) : Rec α :=
  r.filter (fun p => !(p.1 == k))

/-- `Object.values(obj)` in property order. -/
def recValues {α : Type} (r : Rec α) : List α :=
  r.map (·.2)

/-- JS `v || 0` on a number. -/
def jsOrZero (v : Int) : Int := if v = 0 then 0 else v

/-- JS `v || 0` where `v` may be undefined/null. -/
def optOrZero (v : Option Int) : Int :=
  match v with
  | some n => jsOrZero n
  | none => 0

/-- JS truthiness of a possibly-undefined string. -/
def truthyOpt : Option String → Bool
  | some v => !(v == "")
  | none => false

/-- JS falsiness of a possibly-undefined string (`!x`). -/
def optFalsy : Option String → Bool
  | some v => v == ""
  | none => true

/-- `Array.prototype.slice(-n)`: the last `n` elements. -/
def jsSliceLast {α : Type} (n : Nat) (l : List α) : List α :=
  l.drop (l.length - n)

/-! Data model, from `src/lib/types.ts`. -/

structure Container where
  id : String
  name : String
  status : String
deriving DecidableEq, Repr

structure Stats where
  cpu_percent : Int := 0
  cpu_count : Option Int := none
  memory_usage : Int := 0
  memory_limit : Int := 0
  network_rx : Int := 0
  network_tx : Int := 0
  io_read : Int := 0
  io_write : Int := 0
  uptime : Int := 0
deriving DecidableEq, Repr

structure CustomNames where
  containers : Rec String := []
  groups : Rec String := []
  container_groups : Rec String := []
deriving DecidableEq, Repr

structure SystemInfo where
  MemTotal : Int := 0
  NCPU : Int := 0
deriving DecidableEq, Repr

structure NetworkHistory where
  rx : List Int := []
  tx : List Int := []
deriving DecidableEq, Repr

/-! Group resolution, from `src/lib/utils/containerHelpers.ts`. -/

/-- First token of `name.split(/[-_]/)`: the characters before the first '-' or '_'. -/
def firstToken (nm : String) : String :=
  String.mk (nm.toList.takeWhile (fun c => !(c == '-' || c == '_')))

/-- `getDefaultGroup(container)`: `container.name.split(/[-_]/)[0] || container.name`,
`"Unknown"` on a null container. -/
def getDefaultGroup : Option Container → String
  | none => "Unknown"
  | some c => if firstToken c.name = "" then c.name else firstToken c.name

/-- `getDefaultGroupById(containerId, containers)`. -/
def getDefaultGroupById (containerId : String) (containers : List Container) : String :=
  match containers.find? (fun c => c.id == containerId) with
  | none => "Unknown"
  | some c => getDefaultGroup (some c)

/-- `getContainerGroup(containerId, containers, customContainerGroups)`:
the overlay entry when truthy, else the default group. -/
def getContainerGroup (containerId : String) (containers : List Container)
    (customContainerGroups : Rec String) : String :=
  match recGetTruthy customContainerGroups containerId with
  | some g => g
  | none => getDefaultGroupById containerId containers

/-- `acc[groupName] = acc[groupName] || []; acc[groupName].push(container)`. -/
def groupPush (acc : Rec (List Container)) (g : String) (c : Container) :
    Rec (List Container) :=
  match recGet acc g with
  | some l => recInsert acc g (l ++ [c])
  | none => recInsert acc g [c]

/-- `updateGroupedContainers(containers, customContainerGroups)`. -/
def updateGroupedContainers (containers : List Container)
    (customContainerGroups : Rec String) : Rec (List Container) :=
  if containers.isEmpty then []
  else containers.foldl
    (fun acc c => groupPush acc (getContainerGroup c.id containers customContainerGroups) c) []

/-- Modelled from the spec's words, for comparison with `getDefaultGroup`:
"the token preceding the first `-` or `_` in the entity's default name,
or the whole name if no separator exists". -/
def specDefaultGroup (nm : String) : String :=
  if nm.toList.any (fun c => c == '-' || c == '_') then firstToken nm else nm

/-- Modelled from the claim's words, for comparison with `getContainerGroup`:
"the overlay entry `customContainerGroups[id]` when present, and otherwise
the default group". -/
def specContainerGroup (containerId : String) (containers : List Container)
    (customContainerGroups : Rec String) : String :=
  match recGet customContainerGroups containerId with
  | some g => g
  | none =>
    match containers.find? (fun c => c.id == containerId) with
    | none => "Unknown"
    | some c => specDefaultGroup c.name

/-! Sorting, from the `sortedContainers` derived store. -/

inductive SortField where
  | memory | cpu | name | network_rx | network_tx | io_read | io_write | uptime | status
deriving DecidableEq, Repr

inductive SortDirection where
  | asc | desc
deriving DecidableEq, Repr

/-- A container spread together with `$stats?.[c.id] || {}` (`none` models `{}`,
whose numeric reads all yield 0 via `|| 0`). -/
structure CWS where
  id : String
  name : String
  status : String
  stats : Option Stats
deriving DecidableEq, Repr

/-- `containers.map(c => ({ ...c, stats: $stats?.[c.id] || {} }))`. -/
def joinStats (containers : List Container) (stats : Rec Stats) : List CWS :=
  containers.map (fun c => ⟨c.id, c.name, c.status, recGet stats c.id⟩)

/-- `a.stats.f || 0`. -/
def statGet (o : Option Stats) (f : Stats → Int) : Int :=
  match o with
  | some s => jsOrZero (f s)
  | none => 0

/-- A JS comparison key: a number or a string. -/
inductive SKey where
  | num (n : Int)
  | str (s : String)
deriving DecidableEq, Repr

/-- The `switch ($sortField)` producing `aValue`. -/
def sortKey : SortField → CWS → SKey
  | .memory, a => .num (statGet a.stats (·.memory_usage))
  | .cpu, a => .num (statGet a.stats (·.cpu_percent))
  | .name, a => .str a.name.toLower
  | .network_rx, a => .num (statGet a.stats (·.network_rx))
  | .network_tx, a => .num (statGet a.stats (·.network_tx))
  | .io_read, a => .num (statGet a.stats (·.io_read))
  | .io_write, a => .num (statGet a.stats (·.io_write))
  | .uptime, a => .num (statGet a.stats (·.uptime))
  | .status, a => .num (if a.status == "running" then 1 else 0)

/-- JS `aValue > bValue` (false across mixed types, as `>` on number vs string is NaN-false). -/
def keyGt : SKey → SKey → Bool
  | .num x, .num y => y < x
  | .str x, .str y => y < x
  | _, _ => false

/-- JS `aValue < bValue`. -/
def keyLt : SKey → SKey → Bool
  | .num x, .num y => x < y
  | .str x, .str y => x < y
  | _, _ => false

/-- The comparator body: `asc` returns `a>b ? 1 : a<b ? -1 : 0`, `desc` the mirrored form. -/
def jsCompare (dir : SortDirection) (k1 k2 : SKey) : Int :=
  match dir with
  | .asc => if keyGt k1 k2 then 1 else if keyLt k1 k2 then -1 else 0
  | .desc => if keyLt k1 k2 then 1 else if keyGt k1 k2 then -1 else 0

/-- The full comparator passed to `.sort`. -/
def cmpCWS (f : SortField) (dir : SortDirection) (a b : CWS) : Int :=
  jsCompare dir (sortKey f a) (sortKey f b)

/-- `sortedContainers`: JS `Array.prototype.sort` is stable, and for this
comparator (a total preorder induced by `sortKey`) the stable sorted result is
unique; `List.insertionSort` with `cmp a b ≤ 0` computes exactly that. -/
def sortedContainers (containers : List Container) (stats : Rec Stats)
    (f : SortField) (dir : SortDirection) : List CWS :=
  List.insertionSort (fun a b => cmpCWS f dir a b ≤ 0) (joinStats containers stats)

/-! Aggregate totals, from the `totalStats` and `groupTotals` derived stores. -/

structure TotalStats where
  cpuPercent : Int
  cpuCount : Int
  memoryUsage : Int
  memoryLimit : Int
  networkRx : Int
  networkTx : Int
  ioRead : Int
  ioWrite : Int
deriving DecidableEq, Repr

/-- `totalStats`: sums over `Object.values($stats)`, `Math.max`-fold for cpuCount,
and `$systemInfo?.MemTotal || 0` for memoryLimit. -/
def totalStats (stats : Rec Stats) (sys : SystemInfo) : TotalStats :=
  let v := recValues stats
  { cpuPercent := v.foldl (fun sum s => sum + s.cpu_percent) 0
    cpuCount := v.foldl (fun m s => max m (optOrZero s.cpu_count)) 0
    memoryUsage := v.foldl (fun sum s => sum + s.memory_usage) 0
    memoryLimit := jsOrZero sys.MemTotal
    networkRx := v.foldl (fun sum s => sum + s.network_rx) 0
    networkTx := v.foldl (fun sum s => sum + s.network_tx) 0
    ioRead := v.foldl (fun sum s => sum + s.io_read) 0
    ioWrite := v.foldl (fun sum s => sum + s.io_write) 0 }

structure GroupTotal where
  cpu : Int
  cpuCount : Int
  memory : Int
  memoryLimit : Int
  networkRx : Int
  networkTx : Int
  ioRead : Int
  ioWrite : Int
deriving DecidableEq, Repr

/-- The fallback stats object used when a group member has no stats entry
(its `uptime` field is absent in the source object and never read here). -/
def zeroGroupStats : Stats :=
  { cpu_percent := 0, cpu_count := some 0, memory_usage := 0, memory_limit := 0
    network_rx := 0, network_tx := 0, io_read := 0, io_write := 0, uptime := 0 }

/-- `Math.max(...l)`.  JS yields `-Infinity` on an empty spread; that case is
unreachable here because `updateGroupedContainers` never creates an empty
bucket (`groupedContainers_buckets_ne_nil` below), so a sentinel 0 is used. -/
def jsMaxSpread (l : List Int) : Int :=
  match l with
  | [] => 0
  | x :: xs => xs.foldl max x

/-- One entry of `groupTotals`. -/
def groupTotalsEntry (gcs : List Container) (stats : Rec Stats) : GroupTotal :=
  let groupStats := gcs.map (fun c => (recGet stats c.id).getD zeroGroupStats)
  { cpu := groupStats.foldl (fun sum s => sum + s.cpu_percent) 0
    cpuCount := jsMaxSpread (groupStats.map (fun s => optOrZero s.cpu_count))
    memory := groupStats.foldl (fun sum s => sum + s.memory_usage) 0
    memoryLimit := jsMaxSpread (groupStats.map (fun s => jsOrZero s.memory_limit))
    networkRx := groupStats.foldl (fun sum s => sum + s.network_rx) 0
    networkTx := groupStats.foldl (fun sum s => sum + s.network_tx) 0
    ioRead := groupStats.foldl (fun sum s => sum + s.io_read) 0
    ioWrite := groupStats.foldl (fun sum s => sum + s.io_write) 0 }

/-- `groupTotals`: one entry per key of `groupedContainers`. -/
def groupTotals (grouped : Rec (List Container)) (stats : Rec Stats) : Rec GroupTotal :=
  grouped.foldl (fun acc p => recInsert acc p.1 (groupTotalsEntry p.2 stats)) []

/-- Modelled from the claim's words, for comparison with `totalStats`:
the global memory limit as the maximum of the per-entity memory limits. -/
def specGlobalMemoryLimit (stats : Rec Stats) : Int :=
  jsMaxSpread ((recValues stats).map (fun s => jsOrZero s.memory_limit))

/-! Network history, from `updateNetworkHistory` (store version and page version). -/

/-- Aggregate rx total of one push payload. -/
def pushTotalsRx (statsData : Rec Stats) : Int :=
  (recValues statsData).foldl (fun sum s => sum + jsOrZero s.network_rx) 0

/-- Aggregate tx total of one push payload. -/
def pushTotalsTx (statsData : Rec Stats) : Int :=
  (recValues statsData).foldl (fun sum s => sum + jsOrZero s.network_tx) 0

/-- Store version: `{ rx: [...history.rx.slice(-9), totalRx], tx: ... }`. -/
def updateNetworkHistoryStore (history : NetworkHistory) (statsData : Rec Stats) :
    NetworkHistory :=
  { rx := jsSliceLast 9 history.rx ++ [pushTotalsRx statsData]
    tx := jsSliceLast 9 history.tx ++ [pushTotalsTx statsData] }

/-- Page version: `[...networkHistory.rx.slice(-9), totalRx].slice(-10)`
(its reduce has no `|| 0`, which is the identity on `Int` anyway). -/
def updateNetworkHistoryPageFn (history : NetworkHistory) (statsData : Rec Stats) :
    NetworkHistory :=
  { rx := jsSliceLast 10 (jsSliceLast 9 history.rx ++
      [(recValues statsData).foldl (fun sum s => sum + s.network_rx) 0])
    tx := jsSliceLast 10 (jsSliceLast 9 history.tx ++
      [(recValues statsData).foldl (fun sum s => sum + s.network_tx) 0]) }

/-- A run of push snapshots from the empty histories. -/
def runNetworkHistory (pushes : List (Rec Stats)) : NetworkHistory :=
  pushes.foldl updateNetworkHistoryStore ⟨[], []⟩

/-! Chart unit selection, `getNetworkChartUnit`. -/

/-- `Math.max(...values, 1)` then the threshold ladder. -/
def getNetworkChartUnit (values : List Int) : Int × String :=
  let m := values.foldl max 1
  if m ≥ 10 ^ 12 then (10 ^ 12, "TB")
  else if m ≥ 10 ^ 9 then (10 ^ 9, "GB")
  else if m ≥ 10 ^ 6 then (10 ^ 6, "MB")
  else if m ≥ 10 ^ 3 then (10 ^ 3, "KB")
  else (1, "B")

/-- The divisor/unit pairs of the ladder. -/
def chartUnits : List (Int × String) :=
  [(1, "B"), (10 ^ 3, "KB"), (10 ^ 6, "MB"), (10 ^ 9, "GB"), (10 ^ 12, "TB")]

/-! Interaction guard, from `startEditing`/`stopEditing`/`startDragging`/`stopDragging`.
All four assign the single boolean `isUserInteracting`. -/

inductive GuardEvent where
  | startEdit | stopEdit | startDrag | stopDrag
deriving DecidableEq, Repr

/-- One guard transition of the source. -/
def guardStep (b : Bool) : GuardEvent → Bool
  | .startEdit => true
  | .stopEdit => false
  | .startDrag => true
  | .stopDrag => false

/-- The guard after a sequence of interaction events, from the initial `false`. -/
def runGuard (evs : List GuardEvent) : Bool :=
  evs.foldl guardStep false

/-- Modelled from the claim's words, for comparison with `runGuard`:
a reference count that begin increments and end decrements, active iff positive. -/
def specGuardCount (evs : List GuardEvent) : Nat :=
  evs.foldl
    (fun n e =>
      match e with
      | .startEdit => n + 1
      | .startDrag => n + 1
      | .stopEdit => n - 1
      | .stopDrag => n - 1) 0

/-! Component state and the `update_stats` handlers. -/

structure AppState where
  containers : List Container := []
  stats : Rec Stats := []
  customNames : CustomNames := {}
  systemInfo : SystemInfo := {}
  networkHistory : NetworkHistory := {}
  editingContainerId : Option String := none
  editingGroupName : Option String := none
  editingName : String := ""
  isDragging : Bool := false
  isUserInteracting : Bool := false
deriving DecidableEq, Repr

def startEditing (s : AppState) : AppState := { s with isUserInteracting := true }

def stopEditing (s : AppState) : AppState := { s with isUserInteracting := false }

structure PushPayload where
  containers : Rec Stats := []
  system_info : SystemInfo := {}
  custom_names : CustomNames := {}
deriving DecidableEq, Repr

/-- The page component's `update_stats` handler: a full early return while the
user is interacting; otherwise stats and system info are replaced, the overlay
is replaced only when no edit or drag is pending, and the history is updated. -/
def applyUpdateStats (s : AppState) (d : PushPayload) : AppState :=
  if s.isUserInteracting then s
  else
    let s1 := { s with stats := d.containers, systemInfo := d.system_info }
    let s2 :=
      if optFalsy s1.editingContainerId && optFalsy s1.editingGroupName && !s1.isDragging then
        { s1 with customNames := d.custom_names }
      else s1
    { s2 with networkHistory := updateNetworkHistoryPageFn s2.networkHistory s2.stats }

/-- The store-based `update_stats` handler: stats, system info and history are
always updated; the overlay is replaced unless an `<input>` element has focus. -/
def applyUpdateStatsStore (s : AppState) (d : PushPayload) (inputFocused : Bool) : AppState :=
  let s1 := { s with stats := d.containers, systemInfo := d.system_info }
  let s2 := { s1 with networkHistory := updateNetworkHistoryStore s1.networkHistory d.containers }
  if !inputFocused then { s2 with customNames := d.custom_names } else s2

/-! Optimistic rename flows, from `updateContainerName` / `updateGroupName`
in the page component.  Each flow splits at its single suspension point (the
`fetch`): the `Local` part runs synchronously before the remote call, the
`Settle` part runs when the call resolves with success flag `ok`. -/

/-- `containers.map(c => c.id === cid ? { ...c, name } : c)`. -/
def setContainerName (l : List Container) (cid nm : String) : List Container :=
  l.map (fun c => if c.id == cid then { c with name := nm } else c)

/-- Synchronous part of `updateContainerName`: capture
`containers.find(c => c.id === containerId)?.name`, apply the overlay and list
updates, clear the editing fields.  Returns the captured original name. -/
def updateContainerNameLocal (s : AppState) (cid nm : String) :
    AppState × Option String :=
  let s0 := startEditing s
  let originalName := (s0.containers.find? (fun c => c.id == cid)).map (·.name)
  let s1 := { s0 with
    customNames := { s0.customNames with
      containers := recInsert s0.customNames.containers cid nm }
    containers := setContainerName s0.containers cid nm
    editingContainerId := none
    editingName := "" }
  (s1, originalName)

/-- Post-`fetch` part of `updateContainerName`: on failure and a truthy captured
name, delete the overlay entry and write the captured name back into the list. -/
def updateContainerNameSettle (s : AppState) (cid : String)
    (originalName : Option String) (ok : Bool) : AppState :=
  let s1 :=
    if ok then s
    else if truthyOpt originalName then
      { s with
        customNames := { s.customNames with
          containers := recErase s.customNames.containers cid }
        containers := setContainerName s.containers cid (originalName.getD "") }
    else s
  stopEditing s1

/-- The whole `updateContainerName` call with remote outcome `ok`. -/
def updateContainerNameFlow (s : AppState) (cid nm : String) (ok : Bool) : AppState :=
  let r := updateContainerNameLocal s cid nm
  updateContainerNameSettle r.1 cid r.2 ok

/-- Synchronous part of `updateGroupName`: capture
`customNames.groups[groupName] || groupName`, apply the overlay update, clear
the editing fields. -/
def updateGroupNameLocal (s : AppState) (g nm : String) : AppState × String :=
  let s0 := startEditing s
  let originalName :=
    match recGetTruthy s0.customNames.groups g with
    | some v => v
    | none => g
  let s1 := { s0 with
    customNames := { s0.customNames with
      groups := recInsert s0.customNames.groups g nm }
    editingGroupName := none
    editingName := "" }
  (s1, originalName)

/-- Post-`fetch` part of `updateGroupName`: on failure, delete the overlay
entry and re-insert the captured name when it differs from the group id. -/
def updateGroupNameSettle (s : AppState) (g : String) (originalName : String)
    (ok : Bool) : AppState :=
  let s1 :=
    if ok then s
    else
      let groups1 := recErase s.customNames.groups g
      let groups2 := if originalName ≠ g then recInsert groups1 g originalName else groups1
      { s with customNames := { s.customNames with groups := groups2 } }
  stopEditing s1

/-- The whole `updateGroupName` call with remote outcome `ok`. -/
def updateGroupNameFlow (s : AppState) (g nm : String) (ok : Bool) : AppState :=
  let r := updateGroupNameLocal s g nm
  updateGroupNameSettle r.1 g r.2 ok

/-- The racing schedule of the concurrency claim: rename A starts, rename B
starts before A's call resolves, then A settles with failure and B with success. -/
def raceRenameFinal (s : AppState) (cid nA nB : String) : AppState :=
  let a := updateContainerNameLocal s cid nA
  let b := updateContainerNameLocal a.1 cid nB
  let s3 := updateContainerNameSettle b.1 cid a.2 false
  updateContainerNameSettle s3 cid b.2 true

/-! Helper lemmas about the record model. -/

theorem find?_map_set {α : Type} (r : Rec α) (k : String) (v : α) :
    (r.map (fun p => if p.1 == k then (k, v) else p)).find? (fun p => p.1 == k)
      = (r.find? (fun p => p.1 == k)).map (fun _ => (k, v)) := by
  induction r with
  | nil => rfl
  | cons p ps ih =>
    simp only [List.map_cons, List.find?_cons]
    by_cases hp : (p.1 == k) = true
    · rw [if_pos hp, hp]
      have h2 : (((k, v) : String × α).1 == k) = true := by simp
      rw [h2]
      rfl
    · rw [if_neg hp, Bool.not_eq_true] at *
      rw [hp]
      exact ih

theorem recGet_recInsert_self {α : Type} (r : Rec α) (k : String) (v : α) :
    recGet (recInsert r k v) k = some v := by
  unfold recInsert
  by_cases h : recHas r k
  · rw [if_pos h]
    unfold recGet
    rw [find?_map_set]
    unfold recHas at h
    obtain ⟨p, hp⟩ := Option.isSome_iff_exists.mp h
    rw [hp]
    rfl
  · rw [if_neg h]
    unfold recGet
    have hnone : r.find? (fun p => p.1 == k) = none := by
      unfold recHas at h
      cases hfind : r.find? (fun p => p.1 == k) with
      | none => rfl
      | some p => rw [hfind] at h; simp at h
    clear h
    induction r with
    | nil => simp
    | cons p ps ih =>
      rw [List.find?_cons] at hnone
      cases hp : (p.1 == k) <;> rw [hp] at hnone
      · rw [List.cons_append, List.find?_cons, hp]
        exact ih hnone
      · cases hnone

theorem recGet_recErase_self {α : Type} (r : Rec α) (k : String) :
    recGet (recErase r k) k = none := by
  unfold recGet recErase
  induction r with
  | nil => rfl
  | cons p ps ih =>
    rw [List.filter_cons]
    cases hp : (p.1 == k)
    · rw [if_pos (by simp [hp]), List.find?_cons, hp]
      exact ih
    · rw [if_neg (by simp [hp])]
      exact ih

theorem mem_recInsert {α : Type} {r : Rec α} {k : String} {v : α} {p : String × α}
    (hp : p ∈ recInsert r k v) : p = (k, v) ∨ p ∈ r := by
  unfold recInsert at hp
  by_cases h : recHas r k
  · rw [if_pos h] at hp
    obtain ⟨q, hq, hqe⟩ := List.mem_map.mp hp
    by_cases hk : (q.1 == k) = true
    · rw [if_pos hk] at hqe
      exact Or.inl hqe.symm
    · rw [if_neg hk] at hqe
      exact Or.inr (hqe ▸ hq)
  · rw [if_neg h] at hp
    rcases List.mem_append.mp hp with h1 | h1
    · exact Or.inr h1
    · simp at h1
      exact Or.inl h1

/-- No bucket of `updateGroupedContainers` is empty, so the `Math.max` spread in
`groupTotals` never sees an empty list. -/
theorem groupedContainers_buckets_ne_nil (cs : List Container) (ccg : Rec String)
    {p : String × List Container} (hp : p ∈ updateGroupedContainers cs ccg) :
    p.2 ≠ [] := by
  unfold updateGroupedContainers at hp
  by_cases hcs : cs.isEmpty
  · rw [if_pos hcs] at hp
    cases hp
  · rw [if_neg hcs] at hp
    suffices h : ∀ (l : List Container) (acc : Rec (List Container)),
        (∀ q ∈ acc, q.2 ≠ []) →
        ∀ q ∈ l.foldl
          (fun acc c => groupPush acc (getContainerGroup c.id cs ccg) c) acc, q.2 ≠ [] by
      exact h cs [] (by intro q hq; cases hq) p hp
    intro l
    induction l with
    | nil => intro acc hacc q hq; exact hacc q hq
    | cons c cl ih =>
      intro acc hacc q hq
      rw [List.foldl_cons] at hq
      refine ih _ ?_ q hq
      show ∀ q' ∈ groupPush acc (getContainerGroup c.id cs ccg) c, q'.2 ≠ []
      intro q' hq'
      unfold groupPush at hq'
      split at hq' <;>
        · rcases mem_recInsert hq' with h1 | h1
          · rw [h1]; simp
          · exact hacc q' h1

theorem jsOrZero_eq (v : Int) : jsOrZero v = v := by
  by_cases h : v = 0 <;> simp [jsOrZero, h]

/-! ## C4 — the interaction guard -/

/-- C4, counterexample: the guard is not a reference count.  In the
interleaving "start editing, start dragging, stop editing" the source guard is
already `false` although the drag is still held, while the claimed reference
count is still positive. -/
theorem guard_refcount_counterexample :
    runGuard [.startEdit, .startDrag, .stopEdit] = false ∧
    0 < specGuardCount [.startEdit, .startDrag, .stopEdit] := by
  decide

/-- C4, amended: guard state is a single boolean; every begin sets it `true`
and every end sets it `false`, so ending one interaction deactivates the guard
even while another reason is still held (as in the edit+drag interleaving). -/
theorem guard_single_boolean :
    (∀ b, guardStep b .startEdit = true ∧ guardStep b .startDrag = true ∧
       guardStep b .stopEdit = false ∧ guardStep b .stopDrag = false) ∧
    (∀ evs e, runGuard (evs ++ [e]) = guardStep (runGuard evs) e) ∧
    runGuard [.startEdit, .startDrag, .stopEdit] = false := by
  refine ⟨fun b => ⟨rfl, rfl, rfl, rfl⟩, ?_, by decide⟩
  intro evs e
  simp [runGuard, List.foldl_append]

/-! ## C9 — chart unit selection -/

theorem le_foldl_max : ∀ (l : List Int) (x : Int), x ≤ l.foldl max x
  | [], _ => le_refl _
  | a :: l, x => le_trans (le_max_left x a) (le_foldl_max l (max x a))

/-- C9: `getNetworkChartUnit` returns the largest divisor/unit pair of the
B/KB/MB/GB/TB ladder whose threshold is at most `Math.max(...values, 1)`; the
divisor is always positive, and an empty or all-zero window yields `(1, "B")`. -/
theorem chart_unit_spec :
    (∀ values : List Int,
       getNetworkChartUnit values ∈ chartUnits ∧
       (getNetworkChartUnit values).1 ≤ values.foldl max 1 ∧
       0 < (getNetworkChartUnit values).1 ∧
       (∀ p ∈ chartUnits, p.1 ≤ values.foldl max 1 → p.1 ≤ (getNetworkChartUnit values).1)) ∧
    getNetworkChartUnit [] = (1, "B") ∧
    getNetworkChartUnit [0, 0] = (1, "B") := by
  refine ⟨?_, by decide, by decide⟩
  intro values
  have hm : (1 : Int) ≤ values.foldl max 1 := le_foldl_max values 1
  simp only [getNetworkChartUnit]
  split_ifs with h1 h2 h3 h4 <;>
    refine ⟨by simp [chartUnits], by omega, by norm_num, ?_⟩ <;>
    · intro p hp hple
      simp only [chartUnits, List.mem_cons, List.mem_singleton] at hp
      rcases hp with rfl | rfl | rfl | rfl | rfl | h <;> first
        | omega
        | cases h

/-- C9, witness: the largest-unit property applied at a concrete window. -/
theorem chart_unit_spec_witness :
    ((10 ^ 3 : Int), "KB") ∈ chartUnits ∧
    ((10 ^ 3 : Int) ≤ List.foldl max 1 [(50000 : Int)]) ∧
    (10 ^ 3 : Int) ≤ (getNetworkChartUnit [50000]).1 :=
  ⟨by decide, by decide,
    (chart_unit_spec.1 [50000]).2.2.2 (10 ^ 3, "KB") (by decide) (by decide)⟩

/-! ## C10 — total group resolution with "Unknown" fallback -/

/-- C10: group resolution is total — a null container, an id matching no
container, or both (with no overlay override) resolve to `"Unknown"`. -/
theorem unknown_group_fallback :
    getDefaultGroup none = "Unknown" ∧
    (∀ (containerId : String) (cs : List Container),
       cs.find? (fun c => c.id == containerId) = none →
       getDefaultGroupById containerId cs = "Unknown") ∧
    (∀ (containerId : String) (cs : List Container) (ccg : Rec String),
       recGet ccg containerId = none →
       cs.find? (fun c => c.id == containerId) = none →
       getContainerGroup containerId cs ccg = "Unknown") := by
  refine ⟨rfl, ?_, ?_⟩
  · intro cid cs h
    simp [getDefaultGroupById, h]
  · intro cid cs ccg h1 h2
    simp [getContainerGroup, recGetTruthy, h1, getDefaultGroupById, h2]

/-- C10, witness: the fallback at a concrete unmatched id. -/
theorem unknown_group_fallback_witness :
    getContainerGroup "zzz" [⟨"a", "a", "running"⟩] [("b", "g")] = "Unknown" :=
  unknown_group_fallback.2.2 "zzz" [⟨"a", "a", "running"⟩] [("b", "g")]
    (by decide) (by decide)

/-! ## C7 — group resolution: overlay override and default group -/

/-- C7, counterexample: the claim fails on JS truthiness and on empty leading
tokens.  An overlay entry that is present but empty is ignored (the code
returns `"web"`, not the claimed `""`), and a name beginning with a separator
resolves to the whole name (the code returns `"-abc"`, not the claimed empty
token). -/
theorem group_resolution_counterexample :
    getContainerGroup "web-1" [⟨"web-1", "web-1", "running"⟩] [("web-1", "")] = "web" ∧
    specContainerGroup "web-1" [⟨"web-1", "web-1", "running"⟩] [("web-1", "")] = "" ∧
    getDefaultGroup (some ⟨"x", "-abc", "running"⟩) = "-abc" ∧
    specDefaultGroup "-abc" = "" ∧
    ("web" : String) ≠ "" ∧ ("-abc" : String) ≠ "" := by
  decide

/-- C7, amended: resolution returns the overlay entry when present **and
non-empty**; otherwise the default group, which is the token preceding the
first '-' or '_' when that token is non-empty and the whole name otherwise;
the `web-1` examples behave as claimed. -/
theorem group_resolution_amended :
    (∀ (cid : String) (cs : List Container) (ccg : Rec String) (g : String),
       recGet ccg cid = some g → g ≠ "" → getContainerGroup cid cs ccg = g) ∧
    (∀ (cid : String) (cs : List Container) (ccg : Rec String),
       recGetTruthy ccg cid = none →
       getContainerGroup cid cs ccg = getDefaultGroupById cid cs) ∧
    (∀ c : Container, firstToken c.name ≠ "" → getDefaultGroup (some c) = firstToken c.name) ∧
    (∀ c : Container, firstToken c.name = "" → getDefaultGroup (some c) = c.name) ∧
    getContainerGroup "web-1" [⟨"web-1", "web-1", "running"⟩] [] = "web" ∧
    getContainerGroup "web-1" [⟨"web-1", "web-1", "running"⟩] [("web-1", "custom")] = "custom" ∧
    getContainerGroup "web-1" [⟨"web-1", "web-1", "running"⟩]
      (recErase [("web-1", "custom")] "web-1") = "web" := by
  refine ⟨?_, ?_, ?_, ?_, by decide, by decide, by decide⟩
  · intro cid cs ccg g h1 h2
    simp [getContainerGroup, recGetTruthy, h1, h2]
  · intro cid cs ccg h
    simp [getContainerGroup, h]
  · intro c h
    simp [getDefaultGroup, h]
  · intro c h
    simp [getDefaultGroup, h]

/-- C7, witness: a present non-empty override is returned as-is. -/
theorem group_resolution_amended_witness :
    getContainerGroup "a" [] [("a", "g")] = "g" :=
  group_resolution_amended.1 "a" [] [("a", "g")] "g" (by decide) (by decide)

/-! ## C1 — optimistic rename rollback -/

/-- C1, counterexample: a container rename whose remote call fails does not
restore the pre-mutation overlay value.  Starting from an overlay that maps
`c1` to the custom name `"X"`, a failing rename to `"Y"` leaves the overlay
entry deleted (`none`), not restored to `some "X"`. -/
theorem rename_rollback_counterexample :
    recGet ((updateContainerNameFlow
      { containers := [⟨"c1", "X", "running"⟩]
        customNames := { containers := [("c1", "X")] }
        editingContainerId := some "c1"
        editingName := "X"
        isUserInteracting := true }
      "c1" "Y" false).customNames.containers) "c1" = none ∧
    recGet [("c1", "X")] "c1" = some "X" ∧
    (none : Option String) ≠ some "X" := by
  decide

/-- C1, amended: both rename flows clear the editing fields synchronously and
keep the optimistic overlay value on success.  On failure, the group rename
restores the captured prior overlay value (deleting when the captured value
falls back to the group id), while the container rename only restores the
captured display name into the entity list and **deletes** the overlay entry
(it does not restore a previously set custom name into the overlay). -/
theorem rename_rollback_behavior :
    (∀ (s : AppState) (cid nm : String),
       (updateContainerNameLocal s cid nm).1.editingContainerId = none ∧
       (updateContainerNameLocal s cid nm).1.editingName = "" ∧
       recGet (updateContainerNameLocal s cid nm).1.customNames.containers cid = some nm) ∧
    (∀ (s : AppState) (g nm : String),
       (updateGroupNameLocal s g nm).1.editingGroupName = none ∧
       (updateGroupNameLocal s g nm).1.editingName = "" ∧
       recGet (updateGroupNameLocal s g nm).1.customNames.groups g = some nm) ∧
    (∀ (s : AppState) (cid nm : String),
       recGet (updateContainerNameFlow s cid nm true).customNames.containers cid = some nm) ∧
    (∀ (s : AppState) (g nm : String),
       recGet (updateGroupNameFlow s g nm true).customNames.groups g = some nm) ∧
    (∀ (s : AppState) (cid nm : String),
       recGet (updateContainerNameFlow s cid nm false).customNames.containers cid =
         if truthyOpt ((s.containers.find? (fun c => c.id == cid)).map (·.name)) then none
         else some nm) ∧
    (∀ (s : AppState) (g nm : String),
       recGet (updateGroupNameFlow s g nm false).customNames.groups g =
         (let ori := match recGetTruthy s.customNames.groups g with
                     | some v => v
                     | none => g
          if ori ≠ g then some ori else none)) := by
  refine ⟨?_, ?_, ?_, ?_, ?_, ?_⟩
  · intro s cid nm
    refine ⟨rfl, rfl, ?_⟩
    simp [updateContainerNameLocal, startEditing, recGet_recInsert_self]
  · intro s g nm
    refine ⟨rfl, rfl, ?_⟩
    simp [updateGroupNameLocal, startEditing, recGet_recInsert_self]
  · intro s cid nm
    simp [updateContainerNameFlow, updateContainerNameLocal,
      updateContainerNameSettle, startEditing, stopEditing, recGet_recInsert_self]
  · intro s g nm
    simp [updateGroupNameFlow, updateGroupNameLocal, updateGroupNameSettle,
      startEditing, stopEditing, recGet_recInsert_self]
  · intro s cid nm
    by_cases h : truthyOpt ((s.containers.find? (fun c => c.id == cid)).map (·.name)) = true
    · rw [if_pos h]
      simp [updateContainerNameFlow, updateContainerNameLocal,
        updateContainerNameSettle, startEditing, stopEditing, h, recGet_recErase_self]
    · rw [if_neg h]
      simp [updateContainerNameFlow, updateContainerNameLocal,
        updateContainerNameSettle, startEditing, stopEditing, h, recGet_recInsert_self]
  · intro s g nm
    by_cases h : (match recGetTruthy s.customNames.groups g with
                  | some v => v
                  | none => g) ≠ g <;>
      simp [updateGroupNameFlow, updateGroupNameLocal, updateGroupNameSettle,
        startEditing, stopEditing, h, recGet_recInsert_self, recGet_recErase_self]

/-! ## C2 — concurrent rename mutations -/

/-- C2, counterexample: rename A then rename B on the same container before A
resolves, with A failing and B succeeding, does not end with B's value.  A's
rollback deletes the overlay entry and writes A's captured name back into the
entity list, erasing B's optimistic value. -/
theorem race_rename_counterexample :
    recGet ((raceRenameFinal { containers := [⟨"c1", "web", "running"⟩] }
      "c1" "A" "B").customNames.containers) "c1" = none ∧
    (none : Option String) ≠ some "B" ∧
    (raceRenameFinal { containers := [⟨"c1", "web", "running"⟩] }
      "c1" "A" "B").containers = [⟨"c1", "web", "running"⟩] := by
  decide

theorem find?_setContainerName (l : List Container) (cid nm : String) :
    (setContainerName l cid nm).find? (fun c => c.id == cid)
      = (l.find? (fun c => c.id == cid)).map (fun c => { c with name := nm }) := by
  induction l with
  | nil => rfl
  | cons c cl ih =>
    simp only [setContainerName, List.map_cons, List.find?_cons] at *
    by_cases hc : (c.id == cid) = true
    · rw [if_pos hc, hc]
      rfl
    · rw [if_neg hc, Bool.not_eq_true] at *
      rw [hc]
      exact ih

/-- C2, amended: there is no version guard.  In the A-then-B schedule where A
fails after B's optimistic apply and B succeeds, A's rollback deletes the
overlay entry (B's optimistic value is lost) and restores A's captured display
name in the entity list, so the final state reflects A's rollback, not B. -/
theorem race_rename_behavior :
    ∀ (s : AppState) (cid nA nB : String) (c : Container),
      s.containers.find? (fun x => x.id == cid) = some c → c.name ≠ "" →
      recGet ((raceRenameFinal s cid nA nB).customNames.containers) cid = none ∧
      ((raceRenameFinal s cid nA nB).containers.find? (fun x => x.id == cid)).map (·.name)
        = some c.name := by
  intro s cid nA nB c hfind hname
  have htruthy : truthyOpt ((s.containers.find? (fun x => x.id == cid)).map (·.name)) = true := by
    rw [hfind]
    simpa [truthyOpt] using hname
  constructor
  · simp [raceRenameFinal, updateContainerNameLocal, updateContainerNameSettle,
      startEditing, stopEditing, htruthy, recGet_recErase_self]
  · simp only [raceRenameFinal, updateContainerNameLocal, updateContainerNameSettle,
      startEditing, stopEditing, htruthy, if_true, if_pos]
    simp [find?_setContainerName, hfind, htruthy]

/-- C2, witness: the race behavior at a concrete container. -/
theorem race_rename_behavior_witness :
    recGet ((raceRenameFinal { containers := [⟨"c1", "web", "running"⟩] }
      "c1" "A" "B").customNames.containers) "c1" = none ∧
    ((raceRenameFinal { containers := [⟨"c1", "web", "running"⟩] }
      "c1" "A" "B").containers.find? (fun x => x.id == "c1")).map (·.name) = some "web" :=
  race_rename_behavior { containers := [⟨"c1", "web", "running"⟩] } "c1" "A" "B"
    ⟨"c1", "web", "running"⟩ (by decide) (by decide)

/-! ## C3 — push snapshots under the interaction guard -/

/-- C3, counterexample: while the guard is active the page handler skips the
whole push, so stats are **not** updated from the snapshot (the claim says
metrics keep updating while only overlay fields are frozen). -/
theorem push_guard_counterexample :
    (applyUpdateStats { isUserInteracting := true }
      { containers := [("a", { cpu_percent := 7 })]
        custom_names := { containers := [("a", "N")] } }).stats = [] ∧
    ([] : Rec Stats) ≠ [("a", ({ cpu_percent := 7 } : Stats))] := by
  decide

/-- C3, amended: in the page handler an active guard skips the entire push —
overlay fields, stats and system info are all left unchanged; when the guard
is clear, stats and system info always update and the overlay updates exactly
when no editing or drag field is set (so the next merge after the guard
clears adopts the remote overlay).  The store-based handler always updates
stats, system info and history, and guards the overlay only by input focus. -/
theorem push_guard_behavior :
    (∀ (s : AppState) (d : PushPayload),
       s.isUserInteracting = true → applyUpdateStats s d = s) ∧
    (∀ (s : AppState) (d : PushPayload),
       s.isUserInteracting = false →
       (applyUpdateStats s d).stats = d.containers ∧
       (applyUpdateStats s d).systemInfo = d.system_info ∧
       (applyUpdateStats s d).customNames =
         (if optFalsy s.editingContainerId && optFalsy s.editingGroupName && !s.isDragging
          then d.custom_names else s.customNames)) ∧
    (∀ (s : AppState) (d : PushPayload) (focused : Bool),
       (applyUpdateStatsStore s d focused).stats = d.containers ∧
       (applyUpdateStatsStore s d focused).systemInfo = d.system_info ∧
       (applyUpdateStatsStore s d focused).customNames =
         (if focused = false then d.custom_names else s.customNames)) := by
  refine ⟨?_, ?_, ?_⟩
  · intro s d h
    simp [applyUpdateStats, h]
  · intro s d h
    by_cases hg : (optFalsy s.editingContainerId && optFalsy s.editingGroupName
        && !s.isDragging) = true
    · simp [applyUpdateStats, h, hg]
    · simp [applyUpdateStats, h, hg]
  · intro s d focused
    cases focused <;> simp [applyUpdateStatsStore]

/-- C3, witness: the guarded full skip and the unguarded stats update at
concrete states. -/
theorem push_guard_behavior_witness :
    applyUpdateStats { isUserInteracting := true }
      { containers := [("a", { cpu_percent := 7 })] } = { isUserInteracting := true } ∧
    (applyUpdateStats { } { containers := [("a", { cpu_percent := 7 })] }).stats
      = [("a", { cpu_percent := 7 })] :=
  ⟨push_guard_behavior.1 { isUserInteracting := true }
      { containers := [("a", { cpu_percent := 7 })] } rfl,
    (push_guard_behavior.2.1 { } { containers := [("a", { cpu_percent := 7 })] } rfl).1⟩

/-! ## C5 — the rolling network series -/

theorem length_jsSliceLast {α : Type} (n : Nat) (l : List α) :
    (jsSliceLast n l).length ≤ n := by
  simp only [jsSliceLast, List.length_drop]
  omega

theorem jsSliceLast_of_le {α : Type} {n : Nat} {l : List α} (h : l.length ≤ n) :
    jsSliceLast n l = l := by
  simp only [jsSliceLast]
  rw [Nat.sub_eq_zero_of_le h, List.drop_zero]

theorem jsSliceLast_append_last {α : Type} (l : List α) (x : α) :
    jsSliceLast 9 l ++ [x] = jsSliceLast 10 (l ++ [x]) := by
  simp only [jsSliceLast, List.length_append, List.length_singleton]
  rw [List.drop_append_eq_append_drop]
  have h1 : l.length + 1 - 10 = l.length - 9 := by omega
  have h2 : l.length - 9 - l.length = 0 := by omega
  rw [h1, h2, List.drop_zero]

theorem jsSliceLast_jsSliceLast {α : Type} (l : List α) :
    jsSliceLast 9 (jsSliceLast 10 l) = jsSliceLast 9 l := by
  simp only [jsSliceLast, List.drop_drop, List.length_drop]
  congr 1
  omega

theorem runNetworkHistory_eq (pushes : List (Rec Stats)) :
    (runNetworkHistory pushes).rx = jsSliceLast 10 (pushes.map pushTotalsRx) ∧
    (runNetworkHistory pushes).tx = jsSliceLast 10 (pushes.map pushTotalsTx) := by
  induction pushes using List.reverseRecOn with
  | nil => exact ⟨rfl, rfl⟩
  | append_singleton ps p ih =>
    have hstep : runNetworkHistory (ps ++ [p]) =
        updateNetworkHistoryStore (runNetworkHistory ps) p := by
      simp [runNetworkHistory, List.foldl_append]
    rw [hstep, List.map_append, List.map_append]
    simp only [List.map_cons, List.map_nil]
    constructor
    · show jsSliceLast 9 (runNetworkHistory ps).rx ++ [pushTotalsRx p] = _
      rw [ih.1, jsSliceLast_jsSliceLast, jsSliceLast_append_last]
    · show jsSliceLast 9 (runNetworkHistory ps).tx ++ [pushTotalsTx p] = _
      rw [ih.2, jsSliceLast_jsSliceLast, jsSliceLast_append_last]

/-- C5: from empty histories every update keeps both series at length ≤ 10,
appends the new aggregate total at the end (no eviction below capacity,
eviction of exactly the oldest element at capacity), the run equals the last
10 totals in arrival order, and after 11 pushes the first total is gone.  The
page variant of `updateNetworkHistory` computes the same series. -/
theorem rolling_series_fifo :
    (∀ pushes : List (Rec Stats),
       (runNetworkHistory pushes).rx = jsSliceLast 10 (pushes.map pushTotalsRx) ∧
       (runNetworkHistory pushes).tx = jsSliceLast 10 (pushes.map pushTotalsTx)) ∧
    (∀ pushes : List (Rec Stats),
       (runNetworkHistory pushes).rx.length ≤ 10 ∧
       (runNetworkHistory pushes).tx.length ≤ 10) ∧
    (∀ (h : NetworkHistory) (p : Rec Stats), h.rx.length < 10 →
       (updateNetworkHistoryStore h p).rx = h.rx ++ [pushTotalsRx p]) ∧
    (∀ (h : NetworkHistory) (p : Rec Stats), h.rx.length = 10 →
       (updateNetworkHistoryStore h p).rx = h.rx.drop 1 ++ [pushTotalsRx p]) ∧
    (∀ (h : NetworkHistory) (p : Rec Stats),
       updateNetworkHistoryPageFn h p = updateNetworkHistoryStore h p) ∧
    ((runNetworkHistory ((List.range 11).map
        (fun i => [("a", { network_rx := (i : Int) + 1, network_tx := (i : Int) + 1 })]))).rx
      = [2, 3, 4, 5, 6, 7, 8, 9, 10, 11] ∧
     (1 : Int) ∉ (runNetworkHistory ((List.range 11).map
        (fun i => [("a", { network_rx := (i : Int) + 1, network_tx := (i : Int) + 1 })]))).rx) := by
  refine ⟨runNetworkHistory_eq, ?_, ?_, ?_, ?_, by decide⟩
  · intro pushes
    rw [(runNetworkHistory_eq pushes).1, (runNetworkHistory_eq pushes).2]
    exact ⟨length_jsSliceLast _ _, length_jsSliceLast _ _⟩
  · intro h p hlen
    simp only [updateNetworkHistoryStore]
    rw [jsSliceLast_of_le (by omega)]
  · intro h p hlen
    simp only [updateNetworkHistoryStore, jsSliceLast, hlen]
  · intro h p
    have hps : pushTotalsRx p = (recValues p).foldl (fun sum s => sum + s.network_rx) 0 := by
      unfold pushTotalsRx
      congr 1
      funext sum s
      rw [jsOrZero_eq]
    have hpt : pushTotalsTx p = (recValues p).foldl (fun sum s => sum + s.network_tx) 0 := by
      unfold pushTotalsTx
      congr 1
      funext sum s
      rw [jsOrZero_eq]
    simp only [updateNetworkHistoryPageFn, updateNetworkHistoryStore, ← hps, ← hpt]
    have hl1 : (jsSliceLast 9 h.rx ++ [pushTotalsRx p]).length ≤ 10 := by
      have := length_jsSliceLast 9 h.rx
      simp only [List.length_append, List.length_singleton]
      omega
    have hl2 : (jsSliceLast 9 h.tx ++ [pushTotalsTx p]).length ≤ 10 := by
      have := length_jsSliceLast 9 h.tx
      simp only [List.length_append, List.length_singleton]
      omega
    rw [jsSliceLast_of_le hl1, jsSliceLast_of_le hl2]

/-- C5, witness: the two step laws at concrete histories. -/
theorem rolling_series_fifo_witness :
    ([1, 2, 3] : List Int).length < 10 ∧
    (updateNetworkHistoryStore ⟨[1, 2, 3], [4]⟩ []).rx = [1, 2, 3] ++ [pushTotalsRx []] ∧
    ([1, 2, 3, 4, 5, 6, 7, 8, 9, 10] : List Int).length = 10 ∧
    (updateNetworkHistoryStore ⟨[1, 2, 3, 4, 5, 6, 7, 8, 9, 10], []⟩ []).rx
      = ([1, 2, 3, 4, 5, 6, 7, 8, 9, 10] : List Int).drop 1 ++ [pushTotalsRx []] :=
  ⟨by decide,
    rolling_series_fifo.2.2.1 ⟨[1, 2, 3], [4]⟩ [] (by decide),
    by decide,
    rolling_series_fifo.2.2.2.1 ⟨[1, 2, 3, 4, 5, 6, 7, 8, 9, 10], []⟩ [] (by decide)⟩

/-! ## C8 — aggregate totals: sums versus maxima -/

/-- C8, counterexample: the **global** memory limit is not the maximum of the
per-entity limits — it is `systemInfo.MemTotal`.  With entity limits 20 and 10
but `MemTotal = 5`, `totalStats` reports 5 while the claimed maximum is 20. -/
theorem totals_memory_limit_counterexample :
    (totalStats [("a", { memory_limit := 20 }), ("b", { memory_limit := 10 })]
      ⟨5, 0⟩).memoryLimit = 5 ∧
    specGlobalMemoryLimit [("a", { memory_limit := 20 }), ("b", { memory_limit := 10 })] = 20 ∧
    (5 : Int) ≠ 20 := by
  decide

theorem foldl_add_eq_sum (f : Stats → Int) :
    ∀ (l : List Stats) (a : Int),
      l.foldl (fun sum s => sum + f s) a = a + (l.map f).sum
  | [], a => by simp
  | s :: l, a => by
    rw [List.foldl_cons, foldl_add_eq_sum f l (a + f s), List.map_cons, List.sum_cons]
    ring

theorem foldl_max_spec :
    ∀ (xs : List Int) (x : Int),
      x ≤ xs.foldl max x ∧ (∀ y ∈ xs, y ≤ xs.foldl max x) ∧
      (xs.foldl max x = x ∨ xs.foldl max x ∈ xs)
  | [], x => by simp
  | a :: xs, x => by
    obtain ⟨h1, h2, h3⟩ := foldl_max_spec xs (max x a)
    rw [List.foldl_cons]
    refine ⟨le_trans (le_max_left x a) h1, ?_, ?_⟩
    · intro y hy
      rcases List.mem_cons.mp hy with rfl | hy
      · exact le_trans (le_max_right x y) h1
      · exact h2 y hy
    · rcases h3 with h3 | h3
      · rcases max_choice x a with hc | hc
        · exact Or.inl (h3.trans hc)
        · refine Or.inr ?_
          rw [h3, hc]
          exact List.mem_cons_self a xs
      · exact Or.inr (List.mem_cons_of_mem a h3)

/-- `jsMaxSpread` of a non-empty list is a member and an upper bound. -/
theorem jsMaxSpread_spec {l : List Int} (h : l ≠ []) :
    jsMaxSpread l ∈ l ∧ ∀ y ∈ l, y ≤ jsMaxSpread l := by
  cases l with
  | nil => cases h rfl
  | cons x xs =>
    obtain ⟨h1, h2, h3⟩ := foldl_max_spec xs x
    simp only [jsMaxSpread]
    constructor
    · rcases h3 with h3 | h3
      · rw [h3]; exact List.mem_cons_self x xs
      · exact List.mem_cons_of_mem x h3
    · intro y hy
      rcases List.mem_cons.mp hy with rfl | hy
      · exact h1
      · exact h2 y hy

/-- C8, amended: `cpu_percent`, `memory_usage`, `network_rx/tx` and
`io_read/write` are summed in both the global and the per-group totals;
`cpu_core_count` uses the maximum in both; per-group `memory_limit` uses the
maximum over the group; but the **global** `memory_limit` is
`systemInfo.MemTotal`, not a maximum over the entity set. -/
theorem totals_behavior :
    (∀ (st : Rec Stats) (sys : SystemInfo),
       (totalStats st sys).cpuPercent = ((recValues st).map (·.cpu_percent)).sum ∧
       (totalStats st sys).memoryUsage = ((recValues st).map (·.memory_usage)).sum ∧
       (totalStats st sys).networkRx = ((recValues st).map (·.network_rx)).sum ∧
       (totalStats st sys).networkTx = ((recValues st).map (·.network_tx)).sum ∧
       (totalStats st sys).ioRead = ((recValues st).map (·.io_read)).sum ∧
       (totalStats st sys).ioWrite = ((recValues st).map (·.io_write)).sum ∧
       (totalStats st sys).memoryLimit = jsOrZero sys.MemTotal ∧
       (∀ s ∈ recValues st, optOrZero s.cpu_count ≤ (totalStats st sys).cpuCount)) ∧
    (∀ (gcs : List Container) (st : Rec Stats), gcs ≠ [] →
       (let gs := gcs.map (fun c => (recGet st c.id).getD zeroGroupStats)
        (groupTotalsEntry gcs st).cpu = (gs.map (·.cpu_percent)).sum ∧
        (groupTotalsEntry gcs st).memory = (gs.map (·.memory_usage)).sum ∧
        (groupTotalsEntry gcs st).networkRx = (gs.map (·.network_rx)).sum ∧
        (groupTotalsEntry gcs st).networkTx = (gs.map (·.network_tx)).sum ∧
        (groupTotalsEntry gcs st).ioRead = (gs.map (·.io_read)).sum ∧
        (groupTotalsEntry gcs st).ioWrite = (gs.map (·.io_write)).sum ∧
        ((groupTotalsEntry gcs st).memoryLimit ∈ gs.map (fun s => jsOrZero s.memory_limit) ∧
         ∀ y ∈ gs.map (fun s => jsOrZero s.memory_limit),
           y ≤ (groupTotalsEntry gcs st).memoryLimit) ∧
        ((groupTotalsEntry gcs st).cpuCount ∈ gs.map (fun s => optOrZero s.cpu_count) ∧
         ∀ y ∈ gs.map (fun s => optOrZero s.cpu_count),
           y ≤ (groupTotalsEntry gcs st).cpuCount))) := by
  constructor
  · intro st sys
    refine ⟨?_, ?_, ?_, ?_, ?_, ?_, rfl, ?_⟩
    · simpa using foldl_add_eq_sum (·.cpu_percent) (recValues st) 0
    · simpa using foldl_add_eq_sum (·.memory_usage) (recValues st) 0
    · simpa using foldl_add_eq_sum (·.network_rx) (recValues st) 0
    · simpa using foldl_add_eq_sum (·.network_tx) (recValues st) 0
    · simpa using foldl_add_eq_sum (·.io_read) (recValues st) 0
    · simpa using foldl_add_eq_sum (·.io_write) (recValues st) 0
    · intro s hs
      have h := foldl_max_spec ((recValues st).map (fun s => optOrZero s.cpu_count)) 0
      have hmem : optOrZero s.cpu_count ∈
          (recValues st).map (fun s => optOrZero s.cpu_count) :=
        List.mem_map_of_mem _ hs
      have hle := h.2.1 _ hmem
      calc optOrZero s.cpu_count
          ≤ ((recValues st).map (fun s => optOrZero s.cpu_count)).foldl max 0 := hle
        _ = (totalStats st sys).cpuCount := by
            simp only [totalStats, List.foldl_map]
  · intro gcs st hne
    have hgs : gcs.map (fun c => (recGet st c.id).getD zeroGroupStats) ≠ [] := by
      simpa using hne
    refine ⟨?_, ?_, ?_, ?_, ?_, ?_, ?_, ?_⟩
    · show (gcs.map (fun c => (recGet st c.id).getD zeroGroupStats)).foldl
          (fun sum s => sum + s.cpu_percent) 0 = _
      rw [foldl_add_eq_sum, zero_add]
    · show (gcs.map (fun c => (recGet st c.id).getD zeroGroupStats)).foldl
          (fun sum s => sum + s.memory_usage) 0 = _
      rw [foldl_add_eq_sum, zero_add]
    · show (gcs.map (fun c => (recGet st c.id).getD zeroGroupStats)).foldl
          (fun sum s => sum + s.network_rx) 0 = _
      rw [foldl_add_eq_sum, zero_add]
    · show (gcs.map (fun c => (recGet st c.id).getD zeroGroupStats)).foldl
          (fun sum s => sum + s.network_tx) 0 = _
      rw [foldl_add_eq_sum, zero_add]
    · show (gcs.map (fun c => (recGet st c.id).getD zeroGroupStats)).foldl
          (fun sum s => sum + s.io_read) 0 = _
      rw [foldl_add_eq_sum, zero_add]
    · show (gcs.map (fun c => (recGet st c.id).getD zeroGroupStats)).foldl
          (fun sum s => sum + s.io_write) 0 = _
      rw [foldl_add_eq_sum, zero_add]
    · exact jsMaxSpread_spec (by simpa using hne)
    · exact jsMaxSpread_spec (by simpa using hne)

/-- C8, witness: the per-group maxima at a concrete group. -/
theorem totals_behavior_witness :
    ([⟨"a", "a", "running"⟩] : List Container) ≠ [] ∧
    (groupTotalsEntry [⟨"a", "a", "running"⟩] [("a", { memory_limit := 20 })]).memoryLimit
      ∈ (([⟨"a", "a", "running"⟩] : List Container).map
          (fun c => (recGet [("a", ({ memory_limit := 20 } : Stats))] c.id).getD
            zeroGroupStats)).map (fun s => jsOrZero s.memory_limit) := by
  constructor
  · decide
  · have h := totals_behavior.2 [⟨"a", "a", "running"⟩] [("a", { memory_limit := 20 })]
      (by decide)
    exact h.2.2.2.2.2.2.1.1

/-! ## C6 — sorted container list -/

theorem keyGt_eq_keyLt (k1 k2 : SKey) : keyGt k1 k2 = keyLt k2 k1 := by
  cases k1 <;> cases k2 <;> rfl

theorem not_keyGt_and_keyLt (k1 k2 : SKey) :
    ¬(keyGt k1 k2 = true ∧ keyLt k1 k2 = true) := by
  rintro ⟨h1, h2⟩
  cases k1 with
  | num x =>
    cases k2 with
    | num y =>
      simp only [keyGt, decide_eq_true_eq] at h1
      simp only [keyLt, decide_eq_true_eq] at h2
      omega
    | str s => simp [keyLt] at h2
  | str s =>
    cases k2 with
    | num y => simp [keyLt] at h2
    | str t =>
      simp only [keyGt, decide_eq_true_eq] at h1
      simp only [keyLt, decide_eq_true_eq] at h2
      exact lt_asymm h1 h2

theorem jsCompare_asc_le_iff (k1 k2 : SKey) :
    jsCompare .asc k1 k2 ≤ 0 ↔ keyGt k1 k2 = false := by
  show (if keyGt k1 k2 = true then (1 : Int) else if keyLt k1 k2 = true then -1 else 0) ≤ 0
      ↔ keyGt k1 k2 = false
  by_cases h : keyGt k1 k2 = true
  · rw [if_pos h, h]
    decide
  · rw [if_neg h, Bool.not_eq_true] at *
    rw [h]
    by_cases h2 : keyLt k1 k2 = true
    · rw [if_pos h2]
      decide
    · rw [if_neg h2]
      decide

theorem jsCompare_desc_le_iff (k1 k2 : SKey) :
    jsCompare .desc k1 k2 ≤ 0 ↔ keyLt k1 k2 = false := by
  show (if keyLt k1 k2 = true then (1 : Int) else if keyGt k1 k2 = true then -1 else 0) ≤ 0
      ↔ keyLt k1 k2 = false
  by_cases h : keyLt k1 k2 = true
  · rw [if_pos h, h]
    decide
  · rw [if_neg h, Bool.not_eq_true] at *
    rw [h]
    by_cases h2 : keyGt k1 k2 = true
    · rw [if_pos h2]
      decide
    · rw [if_neg h2]
      decide

/-- Which kind a key is; for a fixed sort field all keys have the same kind. -/
def keyIsNum : SKey → Bool
  | .num _ => true
  | .str _ => false

theorem sortKey_kind (f : SortField) (a b : CWS) :
    keyIsNum (sortKey f a) = keyIsNum (sortKey f b) := by
  cases f <;> rfl

theorem keyGt_false_trans {k1 k2 k3 : SKey}
    (hk12 : keyIsNum k1 = keyIsNum k2) (hk23 : keyIsNum k2 = keyIsNum k3)
    (h1 : keyGt k1 k2 = false) (h2 : keyGt k2 k3 = false) : keyGt k1 k3 = false := by
  cases k1 <;> cases k2 <;> cases k3 <;>
    simp only [keyIsNum, keyGt, decide_eq_false_iff_not] at hk12 hk23 h1 h2 ⊢ <;>
    first
      | omega
      | exact fun hlt =>
          absurd (lt_of_lt_of_le hlt (le_trans (not_lt.mp h1) (not_lt.mp h2))) (lt_irrefl _)
      | cases hk12
      | cases hk23

theorem keyLt_false_trans {k1 k2 k3 : SKey}
    (hk12 : keyIsNum k1 = keyIsNum k2) (hk23 : keyIsNum k2 = keyIsNum k3)
    (h1 : keyLt k1 k2 = false) (h2 : keyLt k2 k3 = false) : keyLt k1 k3 = false := by
  cases k1 <;> cases k2 <;> cases k3 <;>
    simp only [keyIsNum, keyLt, decide_eq_false_iff_not] at hk12 hk23 h1 h2 ⊢ <;>
    first
      | omega
      | exact fun hlt =>
          absurd (lt_of_lt_of_le hlt (le_trans (not_lt.mp h2) (not_lt.mp h1))) (lt_irrefl _)
      | cases hk12
      | cases hk23

theorem cmpCWS_total (f : SortField) (dir : SortDirection) (a b : CWS) :
    cmpCWS f dir a b ≤ 0 ∨ cmpCWS f dir b a ≤ 0 := by
  unfold cmpCWS
  cases dir
  · rw [jsCompare_asc_le_iff, jsCompare_asc_le_iff]
    by_cases h : keyGt (sortKey f a) (sortKey f b) = true
    · right
      rw [keyGt_eq_keyLt] at h
      cases hg : keyGt (sortKey f b) (sortKey f a)
      · rfl
      · exact absurd ⟨hg, h⟩ (not_keyGt_and_keyLt _ _)
    · left
      rw [Bool.not_eq_true] at h
      exact h
  · rw [jsCompare_desc_le_iff, jsCompare_desc_le_iff]
    by_cases h : keyLt (sortKey f a) (sortKey f b) = true
    · right
      rw [← keyGt_eq_keyLt] at h
      cases hl : keyLt (sortKey f b) (sortKey f a)
      · rfl
      · exact absurd ⟨h, hl⟩ (not_keyGt_and_keyLt _ _)
    · left
      rw [Bool.not_eq_true] at h
      exact h

theorem cmpCWS_trans (f : SortField) (dir : SortDirection) (a b c : CWS) :
    cmpCWS f dir a b ≤ 0 → cmpCWS f dir b c ≤ 0 → cmpCWS f dir a c ≤ 0 := by
  unfold cmpCWS
  cases dir
  · rw [jsCompare_asc_le_iff, jsCompare_asc_le_iff, jsCompare_asc_le_iff]
    exact keyGt_false_trans (sortKey_kind f a b) (sortKey_kind f b c)
  · rw [jsCompare_desc_le_iff, jsCompare_desc_le_iff, jsCompare_desc_le_iff]
    exact keyLt_false_trans (sortKey_kind f a b) (sortKey_kind f b c)

theorem cmpCWS_le_of_key_eq (f : SortField) (dir : SortDirection) {a b : CWS}
    (h : sortKey f a = sortKey f b) : cmpCWS f dir a b ≤ 0 := by
  unfold cmpCWS
  rw [h]
  have hg : keyGt (sortKey f b) (sortKey f b) = false := by
    cases sortKey f b <;> simp [keyGt]
  have hl : keyLt (sortKey f b) (sortKey f b) = false := by
    cases sortKey f b <;> simp [keyLt]
  cases dir <;> simp [jsCompare, hg, hl]

theorem filter_orderedInsert (f : SortField) (dir : SortDirection) (k : SKey)
    (x : CWS) (l : List CWS) :
    (List.orderedInsert (fun a b => cmpCWS f dir a b ≤ 0) x l).filter
        (fun c => sortKey f c == k)
      = if sortKey f x == k
        then x :: l.filter (fun c => sortKey f c == k)
        else l.filter (fun c => sortKey f c == k) := by
  induction l with
  | nil =>
    by_cases px : (sortKey f x == k) = true <;>
      simp [List.orderedInsert, px]
  | cons y ys ih =>
    rw [List.orderedInsert]
    by_cases h : cmpCWS f dir x y ≤ 0
    · rw [if_pos h]
      by_cases px : (sortKey f x == k) = true <;>
        simp [List.filter_cons, px]
    · rw [if_neg h]
      have hne : sortKey f x ≠ sortKey f y := fun he => h (cmpCWS_le_of_key_eq f dir he)
      rw [List.filter_cons, List.filter_cons, ih]
      by_cases py : (sortKey f y == k) = true
      · by_cases px : (sortKey f x == k) = true
        · exact absurd ((beq_iff_eq.mp px).trans (beq_iff_eq.mp py).symm) hne
        · simp [px, py]
      · by_cases px : (sortKey f x == k) = true <;> simp [px, py]

theorem filter_sortedContainers (f : SortField) (dir : SortDirection)
    (cs : List Container) (st : Rec Stats) (k : SKey) :
    (sortedContainers cs st f dir).filter (fun c => sortKey f c == k)
      = (joinStats cs st).filter (fun c => sortKey f c == k) := by
  unfold sortedContainers
  generalize joinStats cs st = l
  induction l with
  | nil => rfl
  | cons a l ih =>
    rw [List.insertionSort, filter_orderedInsert, List.filter_cons]
    by_cases pa : (sortKey f a == k) = true
    · rw [if_pos pa, ih, if_pos pa]
    · rw [if_neg pa, ih, if_neg pa]

/-- C6: `sortedContainers` joins each container with its stats and stably
sorts by the selected field.  The `desc` comparator is the negation of the
`asc` one (flipped output, not reversed input); the result is sorted for the
comparator and a permutation of the joined input; elements with equal sort
keys keep their input order (stability, stated via key-filter preservation);
missing stats make numeric keys 0, `name` compares lowercased, `status` maps
`running` above everything else; and the concrete memory/name/tie examples
behave as claimed. -/
theorem sorted_containers_spec :
    (∀ (f : SortField) (a b : CWS), cmpCWS f .desc a b = - cmpCWS f .asc a b) ∧
    (∀ (f : SortField) (dir : SortDirection) (cs : List Container) (st : Rec Stats),
       List.Sorted (fun a b => cmpCWS f dir a b ≤ 0) (sortedContainers cs st f dir)) ∧
    (∀ (f : SortField) (dir : SortDirection) (cs : List Container) (st : Rec Stats),
       List.Perm (sortedContainers cs st f dir) (joinStats cs st)) ∧
    (∀ (f : SortField) (dir : SortDirection) (cs : List Container) (st : Rec Stats)
       (k : SKey),
       (sortedContainers cs st f dir).filter (fun c => sortKey f c == k)
         = (joinStats cs st).filter (fun c => sortKey f c == k)) ∧
    (∀ (i nm stt : String), sortKey .memory ⟨i, nm, stt, none⟩ = .num 0) ∧
    (∀ a : CWS, sortKey .name a = .str a.name.toLower) ∧
    (∀ a : CWS, sortKey .status a = .num (if a.status == "running" then 1 else 0)) ∧
    ((sortedContainers [⟨"a", "a", "running"⟩, ⟨"b", "b", "running"⟩, ⟨"c", "c", "running"⟩]
        [("a", { memory_usage := 5 }), ("b", { memory_usage := 1 }), ("c", { memory_usage := 3 })]
        .memory .desc).map (fun c => statGet c.stats (·.memory_usage)) = [5, 3, 1] ∧
     (sortedContainers [⟨"a", "a", "running"⟩, ⟨"b", "b", "running"⟩, ⟨"c", "c", "running"⟩]
        [("a", { memory_usage := 5 }), ("b", { memory_usage := 1 }), ("c", { memory_usage := 3 })]
        .memory .asc).map (fun c => statGet c.stats (·.memory_usage)) = [1, 3, 5] ∧
     (sortedContainers [⟨"1", "B", "running"⟩, ⟨"2", "a", "running"⟩] [] .name .asc).map
        (·.name) = ["a", "B"] ∧
     (sortedContainers [⟨"x", "x", "running"⟩, ⟨"y", "y", "running"⟩, ⟨"z", "z", "running"⟩]
        [("x", { memory_usage := 5 }), ("y", { memory_usage := 5 }), ("z", { memory_usage := 3 })]
        .memory .desc).map (·.id) = ["x", "y", "z"]) := by
  refine ⟨?_, ?_, ?_, filter_sortedContainers, fun i nm stt => rfl, fun a => rfl,
    fun a => rfl, by decide, by decide, ?_, by decide⟩
  · intro f a b
    unfold cmpCWS jsCompare
    by_cases h1 : keyGt (sortKey f a) (sortKey f b) = true <;>
      by_cases h2 : keyLt (sortKey f a) (sortKey f b) = true
    · exact absurd ⟨h1, h2⟩ (not_keyGt_and_keyLt _ _)
    · simp [h1, h2]
    · simp [h1, h2]
    · simp [h1, h2]
  · intro f dir cs st
    haveI : IsTotal CWS (fun a b => cmpCWS f dir a b ≤ 0) := ⟨cmpCWS_total f dir⟩
    haveI : IsTrans CWS (fun a b => cmpCWS f dir a b ≤ 0) := ⟨cmpCWS_trans f dir⟩
    exact List.sorted_insertionSort _ _
  · intro f dir cs st
    exact List.perm_insertionSort _ _
  · have hB : ("B" : String).toLower = "b" := by
      rw [show ("B" : String).toLower = String.map Char.toLower "B" from rfl, String.map_eq]
      decide
    have hA : ("a" : String).toLower = "a" := by
      rw [show ("a" : String).toLower = String.map Char.toLower "a" from rfl, String.map_eq]
      decide
    simp [sortedContainers, joinStats, List.insertionSort, List.orderedInsert,
      cmpCWS, jsCompare, sortKey, keyGt, keyLt, recGet, hB, hA]
    decide

end DockerCore
